import Mathlib

/-!
Verification of the C2PA remover (JPEG/PNG provenance-metadata detector and
remover) against its natural-language specification.

The repository ships two parallel implementations of the core:
* `main.go` (native build), embedded below in namespace `Native`;
* `main_wasmer.go` (wasm filter build), embedded in namespace `Wasmer`.

Byte sequences are modelled as `List Nat` (each element a byte value).
Go slices `data[a:b]` become `(data.drop a).take (b - a)`; single-byte reads
`data[i]` become `data.getD i 0` (all reads in the source are guarded, so the
default is never observed on the guarded paths).  Multi-byte big-endian reads
`uint32(d[p])<<24 | ... | uint32(d[p+3])` are modelled as the polynomial
`a*2^24 + b*2^16 + c*2^8 + d`, which coincides with the shift/or form because
the four summands occupy disjoint bit ranges for byte inputs.

The Go standard library calls `image.Decode` / `jpeg.Encode` / `png.Encode`
(the "smart mode" re-encoder) are outside the repository; they are modelled by
an oracle parameter `reenc : List Nat → Option (List Nat)` that returns the
re-encoded bytes when decode and encode both succeed and `none` when either
fails, exactly the two routes by which the Go code reaches its fallback.

Scanning loops are embedded with an explicit fuel argument; the top-level
functions pass `data.length` as fuel, which is sufficient because every
iteration of every loop strictly advances the position (proved below as the
fuel-irrelevance theorems for claim C8).
-/

/-- `hasSubstr hay needle` models Go `bytes.Contains`/`strings.Contains`:
does `needle` occur contiguously inside `hay`? -/
def hasSubstr (hay needle : List Nat) : Bool :=
  match hay with
  | [] => needle.isEmpty
  | _ :: t => needle.isPrefixOf hay || hasSubstr t needle

/-- ASCII lower-casing of one byte (models the effect of Go `strings.ToLower`
and of the `(?i)` regex flag on the ASCII search strings used by the code). -/
def toLowerByte (b : Nat) : Nat :=
  if 65 ≤ b ∧ b ≤ 90 then b + 32 else b

/-- Go `binary.BigEndian.Uint16(d[p:p+2])` / `int(d[p])<<8 | int(d[p+1])`. -/
def rd16 (a b : Nat) : Nat := a * 256 + b

/-- Big-endian 32-bit read, Go `uint32(d[p])<<24 | ... | uint32(d[p+3])`. -/
def rd32 (a b c d : Nat) : Nat := a * 2 ^ 24 + b * 2 ^ 16 + c * 2 ^ 8 + d

/-- Big-endian 32-bit write, Go `byte(x>>24), byte(x>>16), byte(x>>8), byte(x)`. -/
def be32 (n : Nat) : List Nat :=
  [n / 2 ^ 24 % 256, n / 2 ^ 16 % 256, n / 2 ^ 8 % 256, n % 256]

/-- Does the byte stream contain an explicit EOI marker `FF D9`? -/
def containsEOI : List Nat → Bool
  | [] => false
  | [_] => false
  | a :: b :: rest => (a == 255 && b == 217) || containsEOI (b :: rest)

/-- The 8-byte PNG signature. -/
def pngSig : List Nat := [137, 80, 78, 71, 13, 10, 26, 10]

/-- Bytes of "http://ns.adobe.com/xap/1.0/" (the XMP APP1 payload prefix). -/
def xmpPrefixB : List Nat :=
  [104,116,116,112,58,47,47,110,115,46,97,100,111,98,101,46,99,111,109,47,120,97,112,47,49,46,48,47]

/-- Bytes of "http://c2pa.org/" (`C2PA_NAMESPACE`). -/
def c2paNamespaceB : List Nat := [104,116,116,112,58,47,47,99,50,112,97,46,111,114,103,47]

/-- Bytes of "c2pa:manifest" (`C2PA_MANIFEST_TAG`). -/
def c2paManifestTagB : List Nat := [99,50,112,97,58,109,97,110,105,102,101,115,116]

/-- Bytes of "c2pa:claim" (`C2PA_CLAIM_TAG`). -/
def c2paClaimTagB : List Nat := [99,50,112,97,58,99,108,97,105,109]

/-- Bytes of "c2pa.manifest" (`c2paManifest` in `main_wasmer.go`). -/
def wManifestB : List Nat := [99,50,112,97,46,109,97,110,105,102,101,115,116]

/-- Bytes of "c2pa". -/
def sc2pa : List Nat := [99,50,112,97]

/-- Bytes of "C2PA". -/
def sC2PA : List Nat := [67,50,80,65]

/-- Bytes of "cai:". -/
def sCaiColon : List Nat := [99,97,105,58]

/-- Bytes of "cai". -/
def sCai : List Nat := [99,97,105]

/-- Bytes of "contentauthenticity". -/
def sAuth : List Nat :=
  [99,111,110,116,101,110,116,97,117,116,104,101,110,116,105,99,105,116,121]

/-- Bytes of "contentcredentials". -/
def sCred : List Nat :=
  [99,111,110,116,101,110,116,99,114,101,100,101,110,116,105,97,108,115]

/-- Bytes of "iTXt". -/
def itxtType : List Nat := [105, 84, 88, 116]

/-- Bytes of "tEXt". -/
def textType : List Nat := [116, 69, 88, 116]

/-- Bytes of "IEND". -/
def iendType : List Nat := [73, 69, 78, 68]

/-- The raw whole-buffer scan for the five case-sensitive C2PA identifiers.
This exact five-way `bytes.Contains` block appears verbatim in
`checkC2PAPNG` of both `main.go` (lines 139-144) and `main_wasmer.go`
(lines 166-170). -/
def rawFive (data : List Nat) : Bool :=
  hasSubstr data sC2PA || hasSubstr data sc2pa || hasSubstr data sCaiColon ||
    hasSubstr data sAuth || hasSubstr data sCred

/-- The distinct error returns of `RemoveC2PA` and its fallbacks. -/
inductive RemErr where
  | unsupportedFormat
  | invalidJPEG
  | parsePNGFailed
  | noRemovable
  | verificationFailed
  | noFallback
deriving DecidableEq

/-- A Go `([]byte, error)` return: success with bytes, failure with `nil`
bytes, or failure that hands back a byte slice alongside the error. -/
inductive RemResult where
  | ok (bytes : List Nat)
  | failNil (e : RemErr)
  | failWith (bytes : List Nat) (e : RemErr)
deriving DecidableEq

/-- `pngChunk` struct, identical in `main.go` and `main_wasmer.go`. -/
structure pngChunk where
  length : Nat
  chunkType : List Nat
  data : List Nat
  crc : Nat
deriving DecidableEq

/-- The byte rendering of one chunk as written back by
`removeC2PAFallbackPNG`: 4-byte big-endian length, 4-byte type, data,
4-byte big-endian CRC. -/
def serializeChunk (c : pngChunk) : List Nat :=
  be32 c.length ++ c.chunkType ++ c.data ++ be32 c.crc

/-- Concatenation of the serialized chunks, in order. -/
def serializeChunks : List pngChunk → List Nat
  | [] => []
  | c :: cs => serializeChunk c ++ serializeChunks cs

/-- Loop body of `extractPNGChunks` (identical in `main.go` lines 340-383 and
`main_wasmer.go` lines 203-247), with explicit fuel.  `pos` is the offset of
the start of the next chunk.  Go reads the 4-byte length at `pos`, the 4-byte
type at `pos+4`, checks `pos+8 + length + 4 ≤ len(data)`, slices the data and
CRC, and stops after an `IEND` chunk. -/
def extractPNGChunksAux : Nat → List Nat → Nat → List pngChunk
  | 0, _, _ => []
  | fuel + 1, data, pos =>
    if pos + 12 ≤ data.length then
      let length := rd32 (data.getD pos 0) (data.getD (pos+1) 0)
        (data.getD (pos+2) 0) (data.getD (pos+3) 0)
      let ctype := (data.drop (pos+4)).take 4
      if pos + 8 + length + 4 ≤ data.length then
        let cdata := (data.drop (pos+8)).take length
        let crc := rd32 (data.getD (pos+8+length) 0) (data.getD (pos+8+length+1) 0)
          (data.getD (pos+8+length+2) 0) (data.getD (pos+8+length+3) 0)
        if ctype = iendType then [⟨length, ctype, cdata, crc⟩]
        else ⟨length, ctype, cdata, crc⟩ :: extractPNGChunksAux fuel data (pos + 12 + length)
      else []
    else []

/-- `extractPNGChunks`: walk the chunks from offset 8 (past the signature).
`data.length` is enough fuel since every iteration advances `pos` by at
least 12. -/
def extractPNGChunks (data : List Nat) : List pngChunk :=
  extractPNGChunksAux data.length data 8

namespace Native

/-- `xmpHasC2PA s`: the C2PA content test `main.go` applies to an APP1 XMP
payload — `strings.Contains` with `C2PA_NAMESPACE`, `C2PA_MANIFEST_TAG`,
`C2PA_CLAIM_TAG`, then the case-insensitive regex
`c2pa|contentauthenticity|contentcredentials|cai` (ASCII folding). -/
def xmpHasC2PA (s : List Nat) : Bool :=
  hasSubstr s c2paNamespaceB || hasSubstr s c2paManifestTagB || hasSubstr s c2paClaimTagB ||
    (let l := s.map toLowerByte
     hasSubstr l sc2pa || hasSubstr l sAuth || hasSubstr l sCred || hasSubstr l sCai)

/-- Loop body of `checkC2PAJPEG` (`main.go` lines 52-133) with explicit fuel.
Go loops `for pos < len(data)-4`; the `int` comparison `pos < len-4` is
`pos + 4 < len` on naturals.  On the APP1 path Go slices
`data[pos+4 : pos+2+length]`; `length ≥ 2` is not checked there, so Go would
panic on `length < 2` — the total model takes an empty slice instead (no
claim below depends on that branch with `length < 2`). -/
def checkC2PAJPEGAux : Nat → List Nat → Nat → Bool
  | 0, _, _ => false
  | fuel + 1, data, pos =>
    if pos + 4 < data.length then
      if data.getD pos 0 ≠ 255 then checkC2PAJPEGAux fuel data (pos + 1)
      else
        let markerType := data.getD (pos+1) 0
        if markerType = 218 then false
        else if markerType = 225 then
          let length := rd16 (data.getD (pos+2) 0) (data.getD (pos+3) 0)
          if pos + 2 + length > data.length then checkC2PAJPEGAux fuel data (pos + 2)
          else
            let segmentData := (data.drop (pos+4)).take (length - 2)
            if xmpPrefixB.isPrefixOf segmentData && xmpHasC2PA segmentData then true
            else checkC2PAJPEGAux fuel data (pos + 2 + length)
        else if markerType = 235 then
          let length := rd16 (data.getD (pos+2) 0) (data.getD (pos+3) 0)
          if pos + 2 + length > data.length then checkC2PAJPEGAux fuel data (pos + 2)
          else true
        else if 224 ≤ markerType ∧ markerType ≤ 239 then
          let length := rd16 (data.getD (pos+2) 0) (data.getD (pos+3) 0)
          if pos + 2 + length > data.length then checkC2PAJPEGAux fuel data (pos + 2)
          else checkC2PAJPEGAux fuel data (pos + 2 + length)
        else checkC2PAJPEGAux fuel data (pos + 2)
    else false

/-- `checkC2PAJPEG` (`main.go`): scan the segments from offset 2. -/
def checkC2PAJPEG (data : List Nat) : Bool :=
  checkC2PAJPEGAux data.length data 2

/-- `checkC2PAPNG` (`main.go` lines 136-152): only the raw whole-buffer scan
for the five case-sensitive identifiers. -/
def checkC2PAPNG (data : List Nat) : Bool :=
  rawFive data

/-- `CheckC2PA` (`main.go` lines 36-49): dispatch on the magic bytes. -/
def CheckC2PA (data : List Nat) : Bool :=
  if [255, 216].isPrefixOf data then checkC2PAJPEG data
  else if pngSig.isPrefixOf data then checkC2PAPNG data
  else false

/-- Result of one run of the `removeC2PAFallbackJPEG` loop from a given
position: the bytes appended to `result` from that point on, whether any
segment was dropped, and whether SOS was reached. -/
structure JWalk where
  tail : List Nat
  dropped : Bool
  foundSOS : Bool
deriving DecidableEq

/-- Loop body of `removeC2PAFallbackJPEG` (`main.go` lines 225-321) with
explicit fuel.  Go loops `for pos < len(data)-1`, i.e. `pos + 1 < len`. -/
def rfjAux : Nat → List Nat → Nat → JWalk
  | 0, _, _ => ⟨[], false, false⟩
  | fuel + 1, data, pos =>
    if pos + 1 < data.length then
      if data.getD pos 0 ≠ 255 then rfjAux fuel data (pos + 1)
      else if pos + 1 ≥ data.length then ⟨[], false, false⟩
      else
        let markerType := data.getD (pos+1) 0
        if markerType = 218 then ⟨data.drop pos, false, true⟩
        else if markerType = 217 then ⟨(data.drop pos).take 2, false, false⟩
        else if (208 ≤ markerType ∧ markerType ≤ 215) ∨ markerType = 1 then
          let w := rfjAux fuel data (pos + 2)
          ⟨255 :: markerType :: w.tail, w.dropped, w.foundSOS⟩
        else if pos + 4 > data.length then ⟨[], false, false⟩
        else
          let length := rd16 (data.getD (pos+2) 0) (data.getD (pos+3) 0)
          if length < 2 then rfjAux fuel data (pos + 2)
          else if pos + 2 + length > data.length then ⟨[], false, false⟩
          else if markerType = 225 then
            let segmentData := (data.drop (pos+4)).take (length - 2)
            let containsC2PA := xmpPrefixB.isPrefixOf segmentData && xmpHasC2PA segmentData
            let w := rfjAux fuel data (pos + 2 + length)
            if containsC2PA then ⟨w.tail, true, w.foundSOS⟩
            else ⟨(data.drop pos).take (2 + length) ++ w.tail, w.dropped, w.foundSOS⟩
          else if markerType = 235 then
            let w := rfjAux fuel data (pos + 2 + length)
            ⟨w.tail, true, w.foundSOS⟩
          else
            let w := rfjAux fuel data (pos + 2 + length)
            ⟨(data.drop pos).take (2 + length) ++ w.tail, w.dropped, w.foundSOS⟩
    else ⟨[], false, false⟩

/-- `removeC2PAFallbackJPEG` (`main.go` lines 212-329): rebuild from SOI,
then (only when SOS was never reached) append an EOI unless the rebuilt
bytes already end in `FF D9`.  Note: the source returns `result, nil`
without re-running `CheckC2PA` on `result`. -/
def removeC2PAFallbackJPEG (data : List Nat) : RemResult :=
  if data.length < 2 ∨ data.getD 0 0 ≠ 255 ∨ data.getD 1 0 ≠ 216 then
    RemResult.failNil RemErr.invalidJPEG
  else
    let w := rfjAux data.length data 2
    let result := 255 :: 216 :: w.tail
    let result :=
      if !w.foundSOS && !([255, 217].isSuffixOf result) then result ++ [255, 217]
      else result
    RemResult.ok result

/-- The per-chunk C2PA test of `removeC2PAFallbackPNG` (`main.go` lines
406-417): an `iTXt`/`tEXt` chunk whose lower-cased text contains "c2pa",
"contentauthenticity" or "cai:". -/
def isC2PAChunk (c : pngChunk) : Bool :=
  (c.chunkType == itxtType || c.chunkType == textType) &&
    (let l := c.data.map toLowerByte
     hasSubstr l sc2pa || hasSubstr l sAuth || hasSubstr l sCaiColon)

/-- `removeC2PAFallbackPNG` (`main.go` lines 386-465): copy every chunk the
per-chunk test does not flag, fail with the original bytes when nothing was
removed or when re-verification still detects C2PA. -/
def removeC2PAFallbackPNG (data : List Nat) : RemResult :=
  let chunks := extractPNGChunks data
  if chunks.length = 0 then RemResult.failNil RemErr.parsePNGFailed
  else
    let out := pngSig ++ serializeChunks (chunks.filter (fun c => !isC2PAChunk c))
    if !chunks.any isC2PAChunk then RemResult.failWith data RemErr.noRemovable
    else if CheckC2PA out then RemResult.failWith data RemErr.verificationFailed
    else RemResult.ok out

/-- `RemoveC2PA` (`main.go` lines 155-209).  `reenc` is the smart-mode
oracle: `some buf` when `image.Decode` plus the format's encoder succeed
producing `buf`, `none` when either fails (both routes lead to the same
fallback in the source). -/
def RemoveC2PA (reenc : List Nat → Option (List Nat)) (data : List Nat) : RemResult :=
  if [255, 216].isPrefixOf data then
    match reenc data with
    | some buf => if CheckC2PA buf = false then RemResult.ok buf else removeC2PAFallbackJPEG data
    | none => removeC2PAFallbackJPEG data
  else if pngSig.isPrefixOf data then
    match reenc data with
    | some buf => if CheckC2PA buf = false then RemResult.ok buf else removeC2PAFallbackPNG data
    | none => removeC2PAFallbackPNG data
  else RemResult.failNil RemErr.unsupportedFormat

end Native

namespace Wasmer

/-- `jpegSegment` struct (`main_wasmer.go` lines 370-374).  `Length` stores
the raw 16-bit length field (which includes its own two bytes); the
no-length markers are recorded with `Length = 0` and empty `Data`. -/
structure jpegSegment where
  Marker : Nat
  Length : Nat
  Data : List Nat
deriving DecidableEq

/-- Loop body of `parseJPEG` (`main_wasmer.go` lines 377-451) with explicit
fuel.  Go loops `for pos < len(data)-1`, i.e. `pos + 1 < len`; after reading
the marker it advances `pos` by 2, reads a 2-byte length for the
length-bearing markers, stops on SOS or EOI, and stops early on truncation
or on a declared length below 2. -/
def parseJPEGAux : Nat → List Nat → Nat → List jpegSegment
  | 0, _, _ => []
  | fuel + 1, data, pos =>
    if pos + 1 < data.length then
      if data.getD pos 0 ≠ 255 then parseJPEGAux fuel data (pos + 1)
      else
        let marker := data.getD (pos+1) 0
        if (208 ≤ marker ∧ marker ≤ 215) ∨ marker = 1 then
          ⟨marker, 0, []⟩ :: parseJPEGAux fuel data (pos + 2)
        else if marker = 218 then [⟨marker, 0, []⟩]
        else if marker = 217 then [⟨marker, 0, []⟩]
        else if pos + 4 > data.length then []
        else
          let length := rd16 (data.getD (pos+2) 0) (data.getD (pos+3) 0)
          if length < 2 then []
          else
            let payloadLength := length - 2
            if pos + 4 + payloadLength > data.length then []
            else ⟨marker, length, (data.drop (pos+4)).take payloadLength⟩ ::
              parseJPEGAux fuel data (pos + 4 + payloadLength)
    else []

/-- `parseJPEG` (`main_wasmer.go`): `nil` on a failed SOI check (modelled as
`[]`; the only consumer treats `nil` and an empty slice alike), otherwise
the segment walk from offset 2. -/
def parseJPEG (data : List Nat) : List jpegSegment :=
  if data.length < 2 ∨ data.getD 0 0 ≠ 255 ∨ data.getD 1 0 ≠ 216 then []
  else parseJPEGAux data.length data 2

/-- The per-segment test of `checkC2PAJPEG` (`main_wasmer.go` lines 121-148):
APP11 is conclusive on the marker alone; an APP1 counts when its payload
contains the `c2paNamespace` or `c2paManifest` byte strings. -/
def segHasC2PA (seg : jpegSegment) : Bool :=
  seg.Marker == 235 ||
    (seg.Marker == 225 && (hasSubstr seg.Data xmpPrefixB || hasSubstr seg.Data wManifestB))

/-- `checkC2PAJPEG` (`main_wasmer.go`): true iff some parsed segment passes
`segHasC2PA` (the Go loop returns at the first hit). -/
def checkC2PAJPEG (data : List Nat) : Bool :=
  (parseJPEG data).any segHasC2PA

/-- The per-chunk test of `checkC2PAPNG` (`main_wasmer.go` lines 178-188):
an `iTXt`/`tEXt` chunk whose text contains, case-sensitively, "c2pa",
"C2PA" or "contentauthenticity". -/
def chunkHasC2PA (c : pngChunk) : Bool :=
  (c.chunkType == itxtType || c.chunkType == textType) &&
    (hasSubstr c.data sc2pa || hasSubstr c.data sC2PA || hasSubstr c.data sAuth)

/-- `checkC2PAPNG` (`main_wasmer.go` lines 155-192): signature check, the
raw five-identifier scan, then the chunk-level scan. -/
def checkC2PAPNG (data : List Nat) : Bool :=
  if ¬ pngSig.isPrefixOf data then false
  else if rawFive data then true
  else (extractPNGChunks data).any chunkHasC2PA

/-- `CheckC2PA` (`main_wasmer.go` lines 96-110). -/
def CheckC2PA (data : List Nat) : Bool :=
  if [255, 216].isPrefixOf data then checkC2PAJPEG data
  else if pngSig.isPrefixOf data then checkC2PAPNG data
  else false

/-- The container formats `detectImageFormat` distinguishes. -/
inductive Fmt where
  | jpeg
  | png
deriving DecidableEq

/-- `detectImageFormat` (`main_wasmer.go` lines 358-366): JPEG needs the
three bytes `FF D8 FF`. -/
def detectImageFormat (data : List Nat) : Option Fmt :=
  if [255, 216, 255].isPrefixOf data then some Fmt.jpeg
  else if pngSig.isPrefixOf data then some Fmt.png
  else none

/-- The removal test of the fallback loop (`main_wasmer.go` line 302):
drop an APP11 segment, or an APP1 segment whose payload contains the
`c2paNamespace` or `c2paManifest` strings. -/
def removePred (seg : jpegSegment) : Bool :=
  seg.Marker == 235 ||
    (seg.Marker == 225 && (hasSubstr seg.Data xmpPrefixB || hasSubstr seg.Data wManifestB))

/-- How the fallback loop writes one kept segment back
(`main_wasmer.go` lines 308-313): `FF`, the marker byte, and — only for a
positive `Length` — the two big-endian length bytes followed by the data. -/
def serializeSeg (seg : jpegSegment) : List Nat :=
  255 :: seg.Marker % 256 ::
    (if seg.Length > 0 then seg.Length / 256 % 256 :: seg.Length % 256 :: seg.Data else [])

/-- Concatenation of the kept segments, in order. -/
def serializeSegs : List jpegSegment → List Nat
  | [] => []
  | s :: ss => serializeSeg s ++ serializeSegs ss

/-- The segments the fallback keeps. -/
def keptSegs (data : List Nat) : List jpegSegment :=
  (parseJPEG data).filter (fun s => !removePred s)

/-- The bytes the JPEG fallback of `RemoveC2PA` (`main_wasmer.go` lines
294-331) assembles: SOI, the kept segments, and an EOI appended exactly when
the walker emitted an EOI segment. -/
def fallbackJPEGBytes (data : List Nat) : List Nat :=
  255 :: 216 :: serializeSegs (keptSegs data) ++
    (if (parseJPEG data).any (fun s => s.Marker == 217) then [255, 217] else [])

/-- The JPEG fallback branch of `RemoveC2PA` (`main_wasmer.go` lines
294-349): original bytes with an error when nothing was removed or when
re-verification still detects C2PA, otherwise the rebuilt bytes. -/
def fallbackJPEG (data : List Nat) : RemResult :=
  if !(parseJPEG data).any removePred then RemResult.failWith data RemErr.noRemovable
  else if CheckC2PA (fallbackJPEGBytes data) then
    RemResult.failWith data RemErr.verificationFailed
  else RemResult.ok (fallbackJPEGBytes data)

/-- `RemoveC2PA` (`main_wasmer.go` lines 251-354), with the smart-mode
re-encoder as the oracle `reenc` (see the header comment). -/
def RemoveC2PA (reenc : List Nat → Option (List Nat)) (data : List Nat) : RemResult :=
  match detectImageFormat data with
  | none => RemResult.failNil RemErr.unsupportedFormat
  | some fmt =>
    match reenc data with
    | some buf =>
        if CheckC2PA buf = false then RemResult.ok buf
        else if fmt = Fmt.jpeg then fallbackJPEG data
        else RemResult.failNil RemErr.noFallback
    | none =>
        if fmt = Fmt.jpeg then fallbackJPEG data
        else RemResult.failNil RemErr.noFallback

/-- The outcomes of one run of the stdin→stdout filter. -/
inductive Outcome where
  | cleaned
  | noMetadataFound
  | failed (e : RemErr)
deriving DecidableEq

/-- The filter (`main` of `main_wasmer.go`, lines 33-92): write the input
unchanged when no C2PA is detected, the cleaned bytes on successful removal,
and the untouched input bytes when `RemoveC2PA` reports any error. -/
def runFilter (reenc : List Nat → Option (List Nat)) (input : List Nat) :
    List Nat × Outcome :=
  if CheckC2PA input = false then (input, Outcome.noMetadataFound)
  else
    match RemoveC2PA reenc input with
    | RemResult.ok b => (b, Outcome.cleaned)
    | RemResult.failNil e => (input, Outcome.failed e)
    | RemResult.failWith _ e => (input, Outcome.failed e)

end Wasmer

/-- Modelled from the spec (claim C5 wording): PNG detection is claimed to be
the raw case-sensitive scan for the five identifiers, or a case-insensitive
occurrence of one of the same identifiers in the text of some `iTXt`/`tEXt`
chunk. -/
def pngSpecDetect (data : List Nat) : Bool :=
  rawFive data ||
    (extractPNGChunks data).any (fun c =>
      (c.chunkType == itxtType || c.chunkType == textType) &&
        (let l := c.data.map toLowerByte
         hasSubstr l sc2pa || hasSubstr l sCaiColon || hasSubstr l sAuth || hasSubstr l sCred))

/-- A chunk record whose fields are mutually consistent 32-bit values:
the declared length equals the stored data length, length and CRC fit in a
`uint32`, and the type tag is 4 bytes. -/
def goodChunk (c : pngChunk) : Bool :=
  (c.length == c.data.length) && decide (c.length < 4294967296) &&
    decide (c.crc < 4294967296) && (c.chunkType.length == 4)

/-- A well-formed chunk sequence: nonempty, every chunk `goodChunk`, the
terminal chunk is `IEND` and no earlier chunk is. -/
def chainOK : List pngChunk → Bool
  | [] => false
  | c :: cs =>
    goodChunk c &&
      (if cs.isEmpty then c.chunkType == iendType
       else !(c.chunkType == iendType) && chainOK cs)

/-- Claim C1 (code bug): the native `RemoveC2PA` reports success through the
JPEG fallback without re-verifying the output.  On this input — SOI followed
by a DQT segment whose payload happens to contain the bytes `FF EB 00 02` —
the fallback drops nothing, appends an EOI, and returns success, yet the
detector still reports C2PA on the returned bytes (its scan walks into the
DQT payload, whose length field it never reads for non-APP markers).  The
smart-mode oracle returns `none` because `image.Decode` fails on this input
(it has no frame header).  The spec requires `detect(result) = false`
whenever removal reports `Cleaned`. -/
theorem c1_unverified_fallback_output :
    Native.RemoveC2PA (fun _ => Option.none) [255,216,255,219,0,10,255,235,0,2,0,0,0,0] =
      RemResult.ok [255,216,255,219,0,10,255,235,0,2,0,0,0,0,255,217] ∧
    Native.CheckC2PA [255,216,255,219,0,10,255,235,0,2,0,0,0,0,255,217] = true := by
  decide

/-- Claim C2: whenever the removal pipeline (the wasm filter: detect, then
`RemoveC2PA`, falling back to the untouched input on any error) terminates
with an outcome other than `Cleaned`, the bytes it emits are exactly the
input bytes, for every smart-mode oracle. -/
theorem c2_non_cleaned_returns_input :
    ∀ (reenc : List Nat → Option (List Nat)) (input : List Nat),
      (Wasmer.runFilter reenc input).2 ≠ Wasmer.Outcome.cleaned →
      (Wasmer.runFilter reenc input).1 = input := by
  intro reenc input h
  by_cases hc : Wasmer.CheckC2PA input = false
  · simp [Wasmer.runFilter, hc]
  · cases hr : Wasmer.RemoveC2PA reenc input with
    | ok b => exact absurd (by simp [Wasmer.runFilter, hc, hr]) h
    | failNil e => simp [Wasmer.runFilter, hc, hr]
    | failWith b e => simp [Wasmer.runFilter, hc, hr]

/-- Witness for C2 at a concrete non-image input. -/
theorem c2_witness :
    (Wasmer.runFilter (fun _ => Option.none) [0]).2 ≠ Wasmer.Outcome.cleaned ∧
    (Wasmer.runFilter (fun _ => Option.none) [0]).1 = [0] :=
  ⟨by decide, c2_non_cleaned_returns_input _ _ (by decide)⟩

/-- Counterexample to claim C3 as stated: this 6-byte stream is SOI followed
by one complete APP11 segment (marker `FF EB`, length 2, empty payload), as
the repository's own segment walker confirms, yet the native detector
returns false — the APP11 marker sits at position 2 and the scan requires
`pos < len(data) - 4`, so it is never examined. -/
theorem c3_counterexample :
    Wasmer.parseJPEG [255,216,255,235,0,2] =
      [{ Marker := 235, Length := 2, Data := [] }] ∧
    Native.CheckC2PA [255,216,255,235,0,2] = false := by
  decide

/-- Claim C3 as amended: whenever the segment walker emits an APP11 segment
(so in particular whenever an APP11 segment lies before the first SOS and
within the scanned window), the wasm detector returns true, regardless of
the segment's payload. -/
theorem c3_app11_segment_detected :
    ∀ (data : List Nat) (seg : Wasmer.jpegSegment),
      seg ∈ Wasmer.parseJPEG data → seg.Marker = 235 →
      Wasmer.checkC2PAJPEG data = true := by
  intro data seg hmem hm
  unfold Wasmer.checkC2PAJPEG
  rw [List.any_eq_true]
  exact ⟨seg, hmem, by simp [Wasmer.segHasC2PA, hm]⟩

/-- Witness for C3 (amended) at a concrete APP11-bearing JPEG. -/
theorem c3_witness :
    ({ Marker := 235, Length := 4, Data := [7, 7] } : Wasmer.jpegSegment) ∈
        Wasmer.parseJPEG [255,216,255,235,0,4,7,7] ∧
    Wasmer.checkC2PAJPEG [255,216,255,235,0,4,7,7] = true :=
  ⟨by decide,
   c3_app11_segment_detected [255,216,255,235,0,4,7,7]
     { Marker := 235, Length := 4, Data := [7, 7] } (by decide) rfl⟩

/-- Counterexample to claim C4 as stated: on this input (SOI, one stray
byte, EOI) the native JPEG fallback walk drops no segment — nothing matches
the detector's criteria, as the recorded `dropped` flag shows — yet the
function returns a rebuilt byte sequence (the stray byte removed) with
success, not the original bytes with a failure. -/
theorem c4_counterexample :
    Native.removeC2PAFallbackJPEG [255,216,0,255,217] = RemResult.ok [255,216,255,217] ∧
    (Native.rfjAux 5 [255,216,0,255,217] 2).dropped = false ∧
    [255,216,255,217] ≠ [255,216,0,255,217] := by
  decide

/-- Claim C4 as amended: in the wasm implementation, when no parsed segment
matches the removal criteria the JPEG fallback returns the original bytes
with the no-removable-metadata error. -/
theorem c4_no_drop_returns_error :
    ∀ data : List Nat, (Wasmer.parseJPEG data).any Wasmer.removePred = false →
      Wasmer.fallbackJPEG data = RemResult.failWith data RemErr.noRemovable := by
  intro data h
  unfold Wasmer.fallbackJPEG
  rw [h]
  rfl

/-- Witness for C4 (amended) at a concrete JPEG with nothing to remove. -/
theorem c4_witness :
    (Wasmer.parseJPEG [255,216,255,217]).any Wasmer.removePred = false ∧
    Wasmer.fallbackJPEG [255,216,255,217] =
      RemResult.failWith [255,216,255,217] RemErr.noRemovable :=
  ⟨by decide, c4_no_drop_returns_error _ (by decide)⟩

/-- Counterexample to claim C5 as stated: a PNG whose only evidence is the
case-variant "Cai:" inside a `tEXt` chunk.  The claimed detection predicate
(raw scan or case-insensitive chunk scan) holds, but both implementations
return false — the native detector never inspects chunks, and the wasm
chunk scan is case-sensitive. -/
theorem c5_counterexample :
    pngSpecDetect
        [137,80,78,71,13,10,26,10,0,0,0,4,116,69,88,116,67,97,105,58,0,0,0,0] = true ∧
    Native.CheckC2PA
        [137,80,78,71,13,10,26,10,0,0,0,4,116,69,88,116,67,97,105,58,0,0,0,0] = false ∧
    Wasmer.CheckC2PA
        [137,80,78,71,13,10,26,10,0,0,0,4,116,69,88,116,67,97,105,58,0,0,0,0] = false := by
  decide

/-- Claim C5 as amended: native PNG detection is exactly the raw
case-sensitive scan for the five identifiers (no chunk inspection); the
wasm variant additionally reports true exactly when some `iTXt`/`tEXt`
chunk contains, case-sensitively, "c2pa", "C2PA" or "contentauthenticity".
No case-insensitive chunk matching is performed. -/
theorem c5_png_detection_characterization :
    ∀ data : List Nat,
      (Native.checkC2PAPNG data = true ↔ rawFive data = true) ∧
      (Wasmer.checkC2PAPNG data = true ↔
        (pngSig.isPrefixOf data = true ∧
          (rawFive data = true ∨
            ∃ c ∈ extractPNGChunks data,
              (c.chunkType = itxtType ∨ c.chunkType = textType) ∧
                (hasSubstr c.data sc2pa = true ∨ hasSubstr c.data sC2PA = true ∨
                  hasSubstr c.data sAuth = true)))) := by
  intro data
  refine ⟨Iff.rfl, ?_⟩
  unfold Wasmer.checkC2PAPNG
  by_cases hp : pngSig.isPrefixOf data
  · by_cases hr : rawFive data
    · simp [hp, hr]
    · simp [hp, hr, List.any_eq_true, Wasmer.chunkHasC2PA]
      constructor
      · rintro ⟨c, hc, h1, h2⟩
        exact ⟨c, hc, h1, by tauto⟩
      · rintro ⟨c, hc, h1, h2⟩
        exact ⟨c, hc, h1, by tauto⟩
  · simp [hp]

/-- Witness instantiating the C5 characterization at a concrete PNG. -/
theorem c5_witness :
    Native.checkC2PAPNG [137,80,78,71,13,10,26,10] = true ↔
      rawFive [137,80,78,71,13,10,26,10] = true :=
  (c5_png_detection_characterization _).1

/-- Counterexample to claim C6 as stated: this JPEG (SOI plus one APP0
segment) contains no EOI marker anywhere, yet the native fallback appends
`FF D9` to its output — the source appends an EOI whenever SOS was not
reached and the rebuilt bytes do not already end in `FF D9`, regardless of
whether the original contained one. -/
theorem c6_counterexample :
    containsEOI [255,216,255,224,0,4,0,0] = false ∧
    Native.removeC2PAFallbackJPEG [255,216,255,224,0,4,0,0] =
      RemResult.ok [255,216,255,224,0,4,0,0,255,217] := by
  decide

/-- Claim C6 as amended: the wasm fallback output always begins with SOI,
and an EOI is appended only when the segment walker emitted an EOI segment;
when the parsed stream contains no EOI the output is exactly SOI followed by
the kept segments, with nothing appended. -/
theorem c6_eoi_only_if_present :
    ∀ data : List Nat,
      (Wasmer.fallbackJPEGBytes data).take 2 = [255, 216] ∧
      ((Wasmer.parseJPEG data).any (fun s => s.Marker == 217) = false →
        Wasmer.fallbackJPEGBytes data =
          255 :: 216 :: Wasmer.serializeSegs (Wasmer.keptSegs data)) := by
  intro data
  constructor
  · rfl
  · intro h
    simp [Wasmer.fallbackJPEGBytes, h]

/-- Witness for C6 (amended) at a concrete EOI-free JPEG. -/
theorem c6_witness :
    (Wasmer.parseJPEG [255,216,255,224,0,2]).any (fun s => s.Marker == 217) = false ∧
    Wasmer.fallbackJPEGBytes [255,216,255,224,0,2] =
      255 :: 216 :: Wasmer.serializeSegs (Wasmer.keptSegs [255,216,255,224,0,2]) :=
  ⟨by decide, (c6_eoi_only_if_present _).2 (by decide)⟩

/-- The native detector scan returns false from any position within four
bytes of the end of the buffer: the loop guard `pos < len(data) - 4` fails
immediately. -/
theorem ccjAux_out_of_window (f : Nat) (data : List Nat) (pos : Nat)
    (h : data.length ≤ pos + 4) : Native.checkC2PAJPEGAux f data pos = false := by
  cases f with
  | zero => rfl
  | succ f =>
    unfold Native.checkC2PAJPEGAux
    rw [if_neg (by omega)]

/-- Claim C10: the native JPEG detection scan only examines marker positions
`pos` with `pos + 4 < len(input)`: started at any position within the final
four bytes it returns false for any fuel, and consequently every JPEG-prefixed
input of total length at most 6 yields `detect = false` regardless of
content. -/
theorem c10_detector_window :
    (∀ data : List Nat, [255, 216].isPrefixOf data = true → data.length ≤ 6 →
        Native.CheckC2PA data = false) ∧
    (∀ (f : Nat) (data : List Nat) (pos : Nat), data.length ≤ pos + 4 →
        Native.checkC2PAJPEGAux f data pos = false) := by
  constructor
  · intro data hp hl
    unfold Native.CheckC2PA
    rw [if_pos hp]
    exact ccjAux_out_of_window _ _ _ (by omega)
  · exact fun f data pos h => ccjAux_out_of_window f data pos h

/-- Witness for C10 at concrete short inputs. -/
theorem c10_witness :
    Native.CheckC2PA [255,216,255,235] = false ∧
    Native.checkC2PAJPEGAux 3 [255,216] 0 = false :=
  ⟨c10_detector_window.1 _ (by decide) (by decide),
   c10_detector_window.2 3 _ 0 (by decide)⟩

/-- Fuel irrelevance for the PNG chunk walk: any fuel of at least the
remaining buffer length (each iteration advances `pos` by at least 12)
computes the same chunk list. -/
theorem extractAux_fuel_irrel :
    ∀ (f : Nat) (data : List Nat) (pos g : Nat),
      data.length - pos ≤ f → data.length - pos ≤ g →
      extractPNGChunksAux f data pos = extractPNGChunksAux g data pos := by
  intro f
  induction f with
  | zero =>
    intro data pos g hf hg
    cases g with
    | zero => rfl
    | succ g =>
      simp only [extractPNGChunksAux]
      rw [if_neg (by omega)]
  | succ f ih =>
    intro data pos g hf hg
    cases g with
    | zero =>
      simp only [extractPNGChunksAux]
      rw [if_neg (by omega)]
    | succ g =>
      simp only [extractPNGChunksAux]
      split_ifs with h1 h2 h3
      · rfl
      · congr 1
        exact ih _ _ _ (by omega) (by omega)
      · rfl
      · rfl

/-- Fuel irrelevance for the wasm JPEG segment walk: every iteration
advances `pos` by at least 1, so any fuel of at least the remaining buffer
length computes the same segment list. -/
theorem parseJPEGAux_fuel_irrel :
    ∀ (f : Nat) (data : List Nat) (pos g : Nat),
      data.length - pos ≤ f → data.length - pos ≤ g →
      Wasmer.parseJPEGAux f data pos = Wasmer.parseJPEGAux g data pos := by
  intro f
  induction f with
  | zero =>
    intro data pos g hf hg
    cases g with
    | zero => rfl
    | succ g =>
      simp only [Wasmer.parseJPEGAux]
      rw [if_neg (by omega)]
  | succ f ih =>
    intro data pos g hf hg
    cases g with
    | zero =>
      simp only [Wasmer.parseJPEGAux]
      rw [if_neg (by omega)]
    | succ g =>
      simp only [Wasmer.parseJPEGAux]
      split_ifs with h1 h2 h3 h4 h5 h6 h7 h8
      all_goals first
        | rfl
        | (exact ih _ _ _ (by omega) (by omega))
        | (congr 1
           exact ih _ _ _ (by omega) (by omega))

/-- Fuel irrelevance for the native JPEG detector scan: every iteration that
does not return advances `pos` by at least 1, so any fuel of at least the
remaining buffer length computes the same answer. -/
theorem ccjAux_fuel_irrel :
    ∀ (f : Nat) (data : List Nat) (pos g : Nat),
      data.length - pos ≤ f → data.length - pos ≤ g →
      Native.checkC2PAJPEGAux f data pos = Native.checkC2PAJPEGAux g data pos := by
  intro f
  induction f with
  | zero =>
    intro data pos g hf hg
    cases g with
    | zero => rfl
    | succ g =>
      simp only [Native.checkC2PAJPEGAux]
      rw [if_neg (by omega)]
  | succ f ih =>
    intro data pos g hf hg
    cases g with
    | zero =>
      simp only [Native.checkC2PAJPEGAux]
      rw [if_neg (by omega)]
    | succ g =>
      simp only [Native.checkC2PAJPEGAux]
      split_ifs with h1 h2 h3 h4 h5 h6 h7 h8 h9
      all_goals first
        | rfl
        | (exact ih _ _ _ (by omega) (by omega))

/-- Claim C8: each scanning loop — the native detector scan, the wasm JPEG
segment walk, and the PNG chunk walk — strictly advances its position on
every iteration that does not exit, so its result is already fixed with a
fuel budget of the remaining buffer length: any two fuels at least
`data.length - pos` (in particular, at least the input length) give
identical results, on every input. -/
theorem c8_scanners_terminate :
    (∀ (data : List Nat) (pos f g : Nat),
        data.length - pos ≤ f → data.length - pos ≤ g →
        Native.checkC2PAJPEGAux f data pos = Native.checkC2PAJPEGAux g data pos) ∧
    (∀ (data : List Nat) (pos f g : Nat),
        data.length - pos ≤ f → data.length - pos ≤ g →
        Wasmer.parseJPEGAux f data pos = Wasmer.parseJPEGAux g data pos) ∧
    (∀ (data : List Nat) (pos f g : Nat),
        data.length - pos ≤ f → data.length - pos ≤ g →
        extractPNGChunksAux f data pos = extractPNGChunksAux g data pos) :=
  ⟨fun data pos f g hf hg => ccjAux_fuel_irrel f data pos g hf hg,
   fun data pos f g hf hg => parseJPEGAux_fuel_irrel f data pos g hf hg,
   fun data pos f g hf hg => extractAux_fuel_irrel f data pos g hf hg⟩

/-- Witness for C8 at a concrete truncated input and oversized fuels. -/
theorem c8_witness :
    Native.checkC2PAJPEGAux 1000 [255,216,255,224,0,9] 2 =
      Native.checkC2PAJPEGAux 4 [255,216,255,224,0,9] 2 ∧
    Wasmer.parseJPEGAux 1000 [255,216,255,224,0,9] 2 =
      Wasmer.parseJPEGAux 4 [255,216,255,224,0,9] 2 ∧
    extractPNGChunksAux 1000 [137,80,78,71,13,10,26,10,0,0,0,9] 8 =
      extractPNGChunksAux 4 [137,80,78,71,13,10,26,10,0,0,0,9] 8 :=
  ⟨c8_scanners_terminate.1 _ 2 1000 4 (by decide) (by decide),
   c8_scanners_terminate.2.1 _ 2 1000 4 (by decide) (by decide),
   c8_scanners_terminate.2.2 _ 8 1000 4 (by decide) (by decide)⟩

/-- A defaulted read from a list of bytes is a byte. -/
theorem getD_lt_256 :
    ∀ (l : List Nat) (i : Nat), (∀ b ∈ l, b < 256) → l.getD i 0 < 256 := by
  intro l
  induction l with
  | nil => intro i _; simp [List.getD]
  | cons a t ih =>
    intro i h
    cases i with
    | zero => exact h a (List.mem_cons_self a t)
    | succ i =>
      simp only [List.getD_cons_succ]
      exact ih i fun b hb => h b (List.mem_cons_of_mem a hb)

/-- The segment invariant holds for every segment the walk emits from any
position, on byte input. -/
theorem parseJPEGAux_invariant :
    ∀ (f : Nat) (data : List Nat) (pos : Nat), (∀ b ∈ data, b < 256) →
      ∀ seg ∈ Wasmer.parseJPEGAux f data pos, seg.Length ≠ 0 →
        2 ≤ seg.Length ∧ seg.Length ≤ 65535 ∧ seg.Data.length = seg.Length - 2 := by
  intro f
  induction f with
  | zero =>
    intro data pos _ seg hm
    simp [Wasmer.parseJPEGAux] at hm
  | succ f ih =>
    intro data pos hb seg hm
    simp only [Wasmer.parseJPEGAux] at hm
    split_ifs at hm with h1 h2 h3 h4 h5 h6 h7 h8
    · exact ih data (pos + 1) hb seg hm
    · rcases List.mem_cons.mp hm with he | ht
      · subst he; intro h0; simp at h0
      · exact ih data (pos + 2) hb seg ht
    · have he := List.mem_singleton.mp hm
      subst he; intro h0; simp at h0
    · have he := List.mem_singleton.mp hm
      subst he; intro h0; simp at h0
    · simp at hm
    · simp at hm
    · simp at hm
    · rcases List.mem_cons.mp hm with he | ht
      · subst he
        intro h0
        dsimp only at h0 ⊢
        have ha := getD_lt_256 data (pos + 2) hb
        have hc := getD_lt_256 data (pos + 3) hb
        simp only [rd16] at h7 h8 ⊢
        refine ⟨by omega, by omega, ?_⟩
        simp only [List.length_take, List.length_drop]
        omega
      · exact ih data _ hb seg ht
    · simp at hm

/-- Claim C9: every length-bearing segment the wasm segment walker emits
(those with a recorded nonzero length field — the walker records 0 exactly
for the length-less markers) satisfies the Segment invariant: the recorded
length is in `[2, 65535]` and the stored payload is exactly `length - 2`
bytes, on every byte input. -/
theorem c9_segment_invariant :
    ∀ data : List Nat, (∀ b ∈ data, b < 256) →
      ∀ seg ∈ Wasmer.parseJPEG data, seg.Length ≠ 0 →
        2 ≤ seg.Length ∧ seg.Length ≤ 65535 ∧ seg.Data.length = seg.Length - 2 := by
  intro data hb seg hm
  unfold Wasmer.parseJPEG at hm
  split_ifs at hm with h
  · simp at hm
  · exact parseJPEGAux_invariant data.length data 2 hb seg hm

/-- Witness for C9 at a concrete JPEG with one APP0 segment. -/
theorem c9_witness :
    (∀ b ∈ [255,216,255,224,0,4,1,2], b < 256) ∧
    (∀ seg ∈ Wasmer.parseJPEG [255,216,255,224,0,4,1,2], seg.Length ≠ 0 →
      2 ≤ seg.Length ∧ seg.Length ≤ 65535 ∧ seg.Data.length = seg.Length - 2) :=
  ⟨by decide, c9_segment_invariant _ (by decide)⟩

/-- Reading past a drop: `data[pos + i]` is element `i` of `data.drop pos`. -/
theorem getD_drop_eq :
    ∀ (n : Nat) (l : List Nat) (i : Nat), (l.drop n).getD i 0 = l.getD (n + i) 0 := by
  intro n
  induction n with
  | zero => intro l i; simp
  | succ n ih =>
    intro l i
    cases l with
    | nil => simp [List.getD]
    | cons a t =>
      have he : n + 1 + i = (n + i) + 1 := by omega
      rw [List.drop_succ_cons, ih t i, he, List.getD_cons_succ]

/-- Dropping further: `data.drop (p + k)` drops `k` more after `p`. -/
theorem drop_add (data : List Nat) (p k : Nat) :
    data.drop (p + k) = (data.drop p).drop k :=
  (List.drop_drop k p data).symm

/-- A 32-bit value is recovered from its big-endian digits. -/
theorem rd32_be32 (n : Nat) (h : n < 4294967296) :
    rd32 (n / 2 ^ 24 % 256) (n / 2 ^ 16 % 256) (n / 2 ^ 8 % 256) (n % 256) = n := by
  have e24 : (2 : Nat) ^ 24 = 16777216 := by norm_num
  have e16 : (2 : Nat) ^ 16 = 65536 := by norm_num
  have e8 : (2 : Nat) ^ 8 = 256 := by norm_num
  simp only [rd32, e24, e16, e8]
  omega

/-- Reading the four bytes at offset `p` recovers `n` when the buffer from
`p` on starts with the big-endian encoding of `n`. -/
theorem rd32_at_drop (data : List Nat) (p n : Nat) (rest : List Nat)
    (h : data.drop p = be32 n ++ rest) (hn : n < 4294967296) :
    rd32 (data.getD p 0) (data.getD (p+1) 0) (data.getD (p+2) 0) (data.getD (p+3) 0) = n := by
  have h0 : data.getD p 0 = n / 2 ^ 24 % 256 := by
    have hx := getD_drop_eq p data 0
    rw [Nat.add_zero] at hx
    rw [← hx, h]; simp [be32]
  have h1 : data.getD (p+1) 0 = n / 2 ^ 16 % 256 := by
    rw [← getD_drop_eq p data 1, h]; simp [be32]
  have h2 : data.getD (p+2) 0 = n / 2 ^ 8 % 256 := by
    rw [← getD_drop_eq p data 2, h]; simp [be32]
  have h3 : data.getD (p+3) 0 = n % 256 := by
    rw [← getD_drop_eq p data 3, h]; simp [be32]
  rw [h0, h1, h2, h3]
  exact rd32_be32 n hn

/-- Each serialized chunk contributes at least one byte, so a chunk list is
never longer than its serialization. -/
theorem length_le_serializeChunks :
    ∀ cs : List pngChunk, cs.length ≤ (serializeChunks cs).length := by
  intro cs
  induction cs with
  | nil => simp [serializeChunks]
  | cons c cs ih =>
    have h8 : 8 ≤ (serializeChunk c).length := by
      simp [serializeChunk, be32, List.length_append]
      omega
    simp only [serializeChunks, List.length_append, List.length_cons]
    omega

/-- The chunk walk parses a well-formed serialized chunk list exactly: if the
buffer from `pos` on is the serialization of a well-formed chunk sequence,
the walk returns precisely that sequence. -/
theorem extract_aux_exact :
    ∀ (cs : List pngChunk) (data : List Nat) (pos f : Nat),
      cs.length ≤ f → chainOK cs = true →
      data.drop pos = serializeChunks cs →
      extractPNGChunksAux f data pos = cs := by
  intro cs
  induction cs with
  | nil => intro data pos f _ hok _; simp [chainOK] at hok
  | cons c cs ih =>
    intro data pos f hf hok hdrop
    cases f with
    | zero => simp at hf
    | succ f =>
      simp only [chainOK, Bool.and_eq_true] at hok
      obtain ⟨hgood, hrest⟩ := hok
      simp only [goodChunk, Bool.and_eq_true, beq_iff_eq, decide_eq_true_eq] at hgood
      obtain ⟨⟨⟨hlen, hlt⟩, hcrc⟩, htype4⟩ := hgood
      rw [serializeChunks] at hdrop
      have hS : data.drop pos =
          be32 c.length ++ (c.chunkType ++ (c.data ++ (be32 c.crc ++ serializeChunks cs))) := by
        rw [hdrop]; simp [serializeChunk, List.append_assoc]
      have hS1len : (serializeChunk c).length = 12 + c.length := by
        simp [serializeChunk, be32, List.length_append, htype4]
        omega
      have hdlen : (data.drop pos).length = data.length - pos := List.length_drop pos data
      have hL : data.length - pos = 12 + c.length + (serializeChunks cs).length := by
        rw [← hdlen, hdrop, List.length_append, hS1len]
      have hLpos : data.length = pos + 12 + c.length + (serializeChunks cs).length := by
        omega
      have hlenread := rd32_at_drop data pos c.length _ hS hlt
      have hd4 : data.drop (pos + 4) =
          c.chunkType ++ (c.data ++ (be32 c.crc ++ serializeChunks cs)) := by
        rw [drop_add, hS]; simp [be32]
      have hctype : (data.drop (pos + 4)).take 4 = c.chunkType := by
        rw [hd4]; exact List.take_left' htype4
      have hd8 : data.drop (pos + 8) = c.data ++ (be32 c.crc ++ serializeChunks cs) := by
        have he : pos + 8 = pos + 4 + 4 := by omega
        rw [he, drop_add, hd4]
        exact List.drop_left' htype4
      have hcdata : (data.drop (pos + 8)).take c.length = c.data := by
        rw [hd8]; exact List.take_left' hlen.symm
      have hdc : data.drop (pos + 8 + c.length) = be32 c.crc ++ serializeChunks cs := by
        rw [drop_add, hd8]
        exact List.drop_left' hlen.symm
      have hcrcread := rd32_at_drop data (pos + 8 + c.length) c.crc _ hdc hcrc
      simp only [extractPNGChunksAux]
      rw [hlenread, hcrcread, hctype, hcdata]
      rw [if_pos (show pos + 12 ≤ data.length by omega)]
      rw [if_pos (show pos + 8 + c.length + 4 ≤ data.length by omega)]
      cases cs with
      | nil =>
        simp only [List.isEmpty_nil, if_true, beq_iff_eq] at hrest
        rw [if_pos hrest]
      | cons c2 cs2 =>
        rw [List.isEmpty_cons, if_neg Bool.false_ne_true, Bool.and_eq_true] at hrest
        obtain ⟨hne0, hok2⟩ := hrest
        have hne : c.chunkType ≠ iendType := by
          intro hcontra
          rw [hcontra] at hne0
          simp at hne0
        rw [if_neg hne]
        congr 1
        apply ih data (pos + 12 + c.length) f (by simp at hf ⊢; omega) hok2
        have he : pos + 12 + c.length = pos + 8 + c.length + 4 := by omega
        rw [he, drop_add, hdc]
        simp [be32]

/-- Claim C7: for a well-formed PNG with no trailing bytes after `IEND`
(its body from offset 8 is the serialization of a well-formed chunk
sequence), concatenating the 4-byte big-endian length, the 4-byte type, the
data and the 4-byte big-endian CRC of every chunk the walker returns, in
order, reproduces the input bytes from offset 8 to the end. -/
theorem c7_png_chunk_roundtrip :
    ∀ (data : List Nat) (cs : List pngChunk),
      chainOK cs = true →
      data = pngSig ++ serializeChunks cs →
      serializeChunks (extractPNGChunks data) = data.drop 8 := by
  intro data cs hok hdata
  have hdrop : data.drop 8 = serializeChunks cs := by
    rw [hdata]
    exact List.drop_left' (by decide)
  have hlen : cs.length ≤ data.length := by
    have h1 := length_le_serializeChunks cs
    have h2 : data.length = 8 + (serializeChunks cs).length := by
      rw [hdata, List.length_append]
      rfl
    omega
  have hx := extract_aux_exact cs data 8 data.length hlen hok hdrop
  rw [extractPNGChunks, hx, hdrop]

/-- Witness for C7 at a concrete two-chunk PNG. -/
theorem c7_witness :
    chainOK [⟨2, [65,66,67,68], [7,8], 5⟩, ⟨0, iendType, [], 9⟩] = true ∧
    serializeChunks (extractPNGChunks
        [137,80,78,71,13,10,26,10, 0,0,0,2, 65,66,67,68, 7,8, 0,0,0,5,
         0,0,0,0, 73,69,78,68, 0,0,0,9]) =
      ([137,80,78,71,13,10,26,10, 0,0,0,2, 65,66,67,68, 7,8, 0,0,0,5,
        0,0,0,0, 73,69,78,68, 0,0,0,9] : List Nat).drop 8 :=
  ⟨by decide,
   c7_png_chunk_roundtrip _ [⟨2, [65,66,67,68], [7,8], 5⟩, ⟨0, iendType, [], 9⟩]
     (by decide) (by decide)⟩
